import Mathlib

/-!
Shallow embedding of the octus_be planning-analysis backend (Python/FastAPI)
and verification of its natural-language specification.

Conventions of the embedding:
* Python `int` values are modelled as `ℤ`, Python `float` arithmetic as exact
  rational arithmetic over `ℚ` (all constants appearing in the code — 14, 0.25,
  0.5, 100, 10 % — are exactly representable, and the inputs relevant to the
  claims keep the computations exact).
* Python `int(x)` applied to a float is truncation toward zero (`pyInt` below).
* Date parsing (`date_utils.parse_date` / `days_until_date`) is abstracted:
  the risk engine receives the already-computed "days until due" as an
  `Option ℤ` (`none` = missing or unparseable due date), exactly the shape in
  which `risk_engine.calculate_deadline_risk` consumes it.
* Python dicts keyed by strings are modelled as association lists with
  overwrite-on-insert (`upsert`), Python sets as `Finset String`.
* Recursions of the source that are not structurally terminating
  (`calculate_dependency_depth`, the DFS of `detect_circular_dependencies`,
  the trace-back loop of `find_critical_path`) are given an explicit fuel
  parameter; `none` means the computation did not complete within the given
  number of steps, so `∀ fuel, … = none` expresses non-termination.
-/

set_option linter.unusedVariables false

/-- Python `int(q)` on an exact rational: truncation toward zero. -/
def pyInt (q : ℚ) : ℤ := if 0 ≤ q then ⌊q⌋ else ⌈q⌉

/-- Task input record (`models.TaskInput`) after pydantic validation.
`dueDate` is carried through the pipeline only via `days_until_date`, which the
embedding abstracts, so the field is omitted here. -/
structure TaskInput where
  id : String
  name : String := ""
  assignee : Option String := none
  storyPoints : ℤ := 0
  status : String := "todo"
  dependencies : List String := []
deriving DecidableEq

namespace VelocityCalculator

/-- `velocity_calculator.predict_release_delay(sprints_needed, planned_sprints)`:
`0` when on track, otherwise `int(extra_sprints * 14)`. -/
def predict_release_delay (sprints_needed : ℚ) (planned_sprints : ℤ) : ℤ :=
  if sprints_needed ≤ (planned_sprints : ℚ) then 0
  else pyInt ((sprints_needed - (planned_sprints : ℚ)) * 14)

/-- `velocity_calculator.calculate_velocity_trend(velocity_history)`. -/
def calculate_velocity_trend (velocity_history : List ℤ) : String :=
  if velocity_history.length < 2 then "unknown"
  else if velocity_history.length < 3 then
    let last := (velocity_history.getLast?).getD 0
    let prev := (velocity_history.dropLast.getLast?).getD 0
    if prev < last then "increasing"
    else if last < prev then "decreasing"
    else "stable"
  else
    let last_sprint : ℚ := ((velocity_history.getLast?).getD 0 : ℤ)
    let previous := velocity_history.dropLast
    let previous_avg : ℚ := (previous.sum : ℚ) / (previous.length : ℚ)
    let threshold : ℚ := previous_avg * (1/10)
    if previous_avg + threshold < last_sprint then "increasing"
    else if last_sprint < previous_avg - threshold then "decreasing"
    else "stable"

/-- The velocity-trend rule exactly as the specification states it for every
history of length ≥ 2 (latest sprint against the mean of all prior sprints,
with a 10 % relative-deviation threshold); written from the claim, to be
compared with `calculate_velocity_trend`. -/
def velocity_trend_as_specified (velocity_history : List ℤ) : String :=
  if velocity_history.length < 2 then "unknown"
  else
    let last_sprint : ℚ := ((velocity_history.getLast?).getD 0 : ℤ)
    let previous := velocity_history.dropLast
    let previous_avg : ℚ := (previous.sum : ℚ) / (previous.length : ℚ)
    if previous_avg + previous_avg / 10 < last_sprint then "increasing"
    else if last_sprint < previous_avg - previous_avg / 10 then "decreasing"
    else "stable"

end VelocityCalculator

namespace RiskEngine

/-- `risk_engine.calculate_deadline_risk`, with date parsing abstracted: the
argument is the result of `days_until_date(due_date)` (`none` when the due
date is missing — falsy — or unparseable). -/
def calculate_deadline_risk (days_until_due : Option ℤ) : ℤ :=
  match days_until_due with
  | none => 30
  | some d =>
    if d < 0 then 100
    else if d ≤ 2 then 90
    else if d ≤ 5 then 70
    else if d ≤ 10 then 50
    else if d ≤ 20 then 30
    else 10

/-- `risk_engine.calculate_complexity_risk(story_points)`. -/
def calculate_complexity_risk (story_points : ℤ) : ℤ :=
  if story_points ≤ 1 then 5
  else if story_points ≤ 3 then 20
  else if story_points ≤ 5 then 40
  else if story_points ≤ 8 then 60
  else if story_points ≤ 13 then 80
  else 95

end RiskEngine

namespace WorkloadAnalyzer

/-- Team member capacity record (`models.TeamMember`, the fields used by
`workload_analyzer`). -/
structure TeamMember where
  name : String
  capacity : ℤ
deriving DecidableEq

/-- Per-member overload record (`models.OverloadAnalysis`). -/
structure OverloadAnalysis where
  assignee : String
  assigned_points : ℤ
  capacity : ℤ
  workload_percentage : ℤ
  is_overloaded : Bool
  overload_severity : String
deriving DecidableEq

/-- `workload_analyzer.calculate_capacity_percentage(assigned_points, capacity)`:
`int((assigned/capacity) * 100)`, with the `999` sentinel for zero capacity. -/
def calculate_capacity_percentage (assigned_points capacity : ℤ) : ℤ :=
  if capacity = 0 then (if assigned_points = 0 then 0 else 999)
  else pyInt (((assigned_points : ℚ) / (capacity : ℚ)) * 100)

/-- `workload_analyzer.detect_overloaded_members(workload, team_capacity)`.
`workload` is the assignee → points dict in iteration order; the capacity map
lookup defaults to 40 and, like a Python dict comprehension, later duplicate
names overwrite earlier ones. -/
def detect_overloaded_members (workload : List (String × ℤ))
    (team_capacity : List TeamMember) : List OverloadAnalysis :=
  workload.filterMap (fun wa =>
    if wa.1 = "Unassigned" then none
    else
      let capacity :=
        ((team_capacity.reverse.find? (fun m => m.name == wa.1)).map
          TeamMember.capacity).getD 40
      let workload_pct := calculate_capacity_percentage wa.2 capacity
      let severity :=
        if workload_pct ≤ 100 then "none"
        else if workload_pct ≤ 120 then "moderate"
        else if workload_pct ≤ 150 then "high"
        else "critical"
      some ⟨wa.1, wa.2, capacity, workload_pct, decide (100 < workload_pct), severity⟩)

end WorkloadAnalyzer

namespace DependencyAnalyzer

/-- The `dependency_graph` dict: task id → list of dependency ids. -/
abbrev Graph := List (String × List String)

/-- Dict insertion with overwrite (Python `d[k] = v`), preserving key order. -/
def upsert (g : Graph) (k : String) (v : List String) : Graph :=
  match g with
  | [] => [(k, v)]
  | (k0, v0) :: rest => if k0 = k then (k, v) :: rest else (k0, v0) :: upsert rest k v

/-- Dict lookup (`k in d` / `d[k]`). -/
def lookupG : Graph → String → Option (List String)
  | [], _ => none
  | (k0, v0) :: rest, k => if k0 = k then some v0 else lookupG rest k

/-- `dependency_analyzer.build_dependency_graph(tasks)` (the forward graph;
the reverse graph is not consumed by the functions treated here). -/
def build_dependency_graph (tasks : List TaskInput) : Graph :=
  tasks.foldl (fun g t => upsert g t.id t.dependencies) []

/-- Inner loop of `calculate_dependency_depth`: running maximum of
`1 + depth(dep)` over the dependency list, propagating non-completion. -/
def depth_fold (dfs : String → Option ℕ) : List String → ℕ → Option ℕ
  | [], acc => some acc
  | d :: ds, acc =>
    match dfs d with
    | none => none
    | some n => depth_fold dfs ds (max acc (n + 1))

/-- `dependency_analyzer.calculate_dependency_depth(task_id)`: the source
recursion carries no visited set, so the embedding meters it with fuel;
`none` means the recursion did not complete within `fuel` nested calls. -/
def calculate_dependency_depth (g : Graph) : ℕ → String → Option ℕ
  | 0, _ => none
  | fuel + 1, task_id =>
    match lookupG g task_id with
    | none => some 0
    | some [] => some 0
    | some deps => depth_fold (calculate_dependency_depth g fuel) deps 0

/-- First loop of `find_critical_path`: scan all tasks for the maximum
dependency depth (strictly greater updates, initial maximum 0). -/
def max_depth_scan (g : Graph) (fuel : ℕ) :
    List TaskInput → ℕ → Option String → Option (ℕ × Option String)
  | [], max_depth, critical_task => some (max_depth, critical_task)
  | t :: ts, max_depth, critical_task =>
    match calculate_dependency_depth g fuel t.id with
    | none => none
    | some d =>
      if max_depth < d then max_depth_scan g fuel ts d (some t.id)
      else max_depth_scan g fuel ts max_depth critical_task

/-- Inner scan of the trace-back loop: the dependency of maximal depth
(`max_dep_depth` starts at −1, strictly greater updates). -/
def deepest_dep (g : Graph) (fuel : ℕ) :
    List String → ℤ → Option String → Option (ℤ × Option String)
  | [], max_dep_depth, next_task => some (max_dep_depth, next_task)
  | d :: ds, max_dep_depth, next_task =>
    match calculate_dependency_depth g fuel d with
    | none => none
    | some dep_depth =>
      if max_dep_depth < (dep_depth : ℤ) then deepest_dep g fuel ds (dep_depth : ℤ) (some d)
      else deepest_dep g fuel ds max_dep_depth next_task

/-- Trace-back `while` loop of `find_critical_path`, metered with fuel
(the source loop has no cycle guard). -/
def trace_path (g : Graph) (dfuel : ℕ) : ℕ → String → List String → Option (List String)
  | 0, _, _ => none
  | fuel + 1, current, path =>
    match lookupG g current with
    | none => some path
    | some [] => some path
    | some deps =>
      match deepest_dep g dfuel deps (-1) none with
      | none => none
      | some (_, none) => some path
      | some (_, some next_task) => trace_path g dfuel fuel next_task (path ++ [next_task])

/-- `dependency_analyzer.find_critical_path(tasks)`, fuel-metered. -/
def find_critical_path (tasks : List TaskInput) (fuel : ℕ) : Option (List String) :=
  let g := build_dependency_graph tasks
  match max_depth_scan g fuel tasks 0 none with
  | none => none
  | some (_, none) => some []
  | some (_, some critical_task) => trace_path g fuel fuel critical_task [critical_task]

/-- The three-task dependency cycle A→B→C→A used by the specification. -/
def cyclicTasks : List TaskInput :=
  [{ id := "A", dependencies := ["B"] },
   { id := "B", dependencies := ["C"] },
   { id := "C", dependencies := ["A"] }]

/-- Two independent two-task dependency cycles A→B→A and C→D→C. -/
def twoCycleTasks : List TaskInput :=
  [{ id := "A", dependencies := ["B"] },
   { id := "B", dependencies := ["A"] },
   { id := "C", dependencies := ["D"] },
   { id := "D", dependencies := ["C"] }]

/-- A two-task acyclic dependency chain X→Y, used as a concrete witness. -/
def chainTasks : List TaskInput :=
  [{ id := "X", dependencies := ["Y"] },
   { id := "Y" }]

/-- Mutable state of the cycle-detection DFS of
`detect_circular_dependencies`: the `visited` set, the recursion-stack set
`rec_stack`, and the accumulated `cycles` list. -/
structure DfsState where
  visited : Finset String
  recStack : Finset String
  cycles : List (List String)

/-- The `for dep_id in self.dependency_graph[task_id]` loop body of the DFS:
unvisited dependencies are explored recursively (`rec` is the recursive call
at the remaining fuel, and a `True` result propagates the early return);
a dependency on the active recursion stack records the cycle as the path
slice from its first occurrence onward plus the repeated node, and returns
`True`. `none` models fuel exhaustion — or the `ValueError` Python
`path.index` would raise if the repeated node were not on the path. -/
def dfs_deps (g : Graph)
    (rec : String → List String → DfsState → Option (Bool × DfsState)) :
    List String → List String → DfsState → Option (Bool × DfsState)
  | [], _, st => some (false, st)
  | dep_id :: ds, path, st =>
    if dep_id ∉ st.visited then
      match rec dep_id path st with
      | none => none
      | some (true, st1) => some (true, st1)
      | some (false, st1) => dfs_deps g rec ds path st1
    else if dep_id ∈ st.recStack then
      match path.findIdx? (fun y => y == dep_id) with
      | some cycle_start => some (true,
          { st with cycles := st.cycles ++ [path.drop cycle_start ++ [dep_id]] })
      | none => none
    else dfs_deps g rec ds path st

/-- The inner `dfs(task_id, path)` of `detect_circular_dependencies`: mark
the node visited and on the recursion stack, append it to the path, walk its
dependencies, and (only when no cycle was found below) pop it from the
recursion stack. Fuel-metered; the source recursion depth is bounded because
every call marks a previously unvisited node. -/
def dfs (g : Graph) : ℕ → String → List String → DfsState → Option (Bool × DfsState)
  | 0, _, _, _ => none
  | fuel + 1, task_id, path, st =>
    let st1 : DfsState :=
      { st with visited := insert task_id st.visited,
                recStack := insert task_id st.recStack }
    let path1 := path ++ [task_id]
    match dfs_deps g (dfs g fuel) ((lookupG g task_id).getD []) path1 st1 with
    | none => none
    | some (true, st2) => some (true, st2)
    | some (false, st2) =>
      some (false, { st2 with recStack := st2.recStack.erase task_id })

/-- The `for task in tasks` driver loop of `detect_circular_dependencies`
(the boolean result of each DFS is ignored, as in the source). -/
def detect_loop (g : Graph) (fuel : ℕ) : List String → DfsState → Option DfsState
  | [], st => some st
  | tid :: rest, st =>
    if tid ∉ st.visited then
      match dfs g fuel tid [] st with
      | none => none
      | some (_, st1) => detect_loop g fuel rest st1
    else detect_loop g fuel rest st

/-- All node names of a dependency graph: the keys together with every
dependency target. -/
def allNodes (g : Graph) : Finset String :=
  (g.map Prod.fst).toFinset ∪ ((g.map Prod.snd).flatten).toFinset

/-- `dependency_analyzer.detect_circular_dependencies(tasks)`. The fuel
`|allNodes| + 1` dominates the source recursion depth (each nested call is
on a previously unvisited node of the graph). -/
def detect_circular_dependencies (tasks : List TaskInput) :
    Option (List (List String)) :=
  let g := build_dependency_graph tasks
  (detect_loop g ((allNodes g).card + 1) (tasks.map TaskInput.id)
      ⟨∅, ∅, []⟩).map DfsState.cycles

/-- Edge relation of the dependency graph: `a` lists `b` as a dependency. -/
def hasEdge (g : Graph) (a b : String) : Prop :=
  ∃ l, lookupG g a = some l ∧ b ∈ l

/-- Reachability along dependency edges. -/
def Reaches (g : Graph) : String → String → Prop :=
  Relation.ReflTransGen (hasEdge g)

end DependencyAnalyzer

namespace PlanningService

open WorkloadAnalyzer in
/-- Per-task risk record (`models.TaskRiskAnalysis`); the `risk_factors` dict
has the five fixed keys, modelled as fields `rf_*`. -/
structure TaskRiskAnalysis where
  task_id : String
  task_name : String
  total_risk_score : ℤ
  risk_level : String
  rf_deadline : ℤ := 0
  rf_complexity : ℤ := 0
  rf_dependency : ℤ := 0
  rf_overload : ℤ := 0
  rf_velocity : ℤ := 0
deriving DecidableEq

/-- `planning_service.PlanningService._identify_critical_issues`. -/
def identify_critical_issues (task_risk_analysis : List TaskRiskAnalysis)
    (overload_analysis : List WorkloadAnalyzer.OverloadAnalysis)
    (blocked_tasks : List String) (predicted_delay : ℤ) : List String :=
  let critical_tasks := task_risk_analysis.filter (fun t => t.risk_level == "critical")
  let i1 : List String :=
    if critical_tasks.isEmpty then []
    else [toString critical_tasks.length ++ " tasks at critical risk level"]
  let severe_overload := overload_analysis.filter (fun o => decide (150 < o.workload_percentage))
  let i2 : List String :=
    if severe_overload.isEmpty then []
    else [toString severe_overload.length ++ " team members severely overloaded (>150% capacity)"]
  let i3 : List String :=
    if 3 < blocked_tasks.length then
      [toString blocked_tasks.length ++ " tasks blocked by dependencies"]
    else []
  let i4 : List String :=
    if 7 < predicted_delay then
      ["Predicted release delay of " ++ toString predicted_delay ++ " days"]
    else []
  let high_complexity := task_risk_analysis.filter (fun t => decide (70 < t.rf_complexity))
  let i5 : List String :=
    if 5 < high_complexity.length then
      [toString high_complexity.length ++ " high-complexity tasks may need breakdown"]
    else []
  let issues := i1 ++ i2 ++ i3 ++ i4 ++ i5
  if issues.isEmpty then ["No critical issues detected"] else issues

end PlanningService

namespace RecommendationEngine

open WorkloadAnalyzer PlanningService

/-- Entry of the `available_members` list built by
`generate_work_distribution_recommendations` (one dict per member with some
capacity left). -/
structure Helper where
  name : String
  available_capacity : ℤ
  current_load_pct : ℤ
  velocity : ℚ
  effectiveness : ℚ
  capacity : ℤ
  assigned : ℤ
deriving DecidableEq

/-- A work-distribution recommendation, keeping the numeric content of the
formatted description string: the affected task, the points the original
owner retains, and the helper allocations in order (name, points). The
purely presentational parts of the source (load percentages, velocity
labels, impact text) are not modelled. -/
structure WorkRecommendation where
  task_id : String
  original_keeps : ℤ
  split_suggestions : List (String × ℤ)
deriving DecidableEq

/-- The `velocity_map.get(name, 1.0)` lookup; the map is a dict built from
`team_capacity` (later duplicate names overwrite earlier ones), and is empty
when `team_capacity` is falsy, so the default 1.0 applies throughout. -/
def velocity_of (team_capacity : List (String × ℚ)) (name : String) : ℚ :=
  ((team_capacity.reverse.find? (fun m => m.1 == name)).map Prod.snd).getD 1

/-- Stable insertion into a list sorted by descending effectiveness: the new
element goes before the first member whose effectiveness does not exceed it. -/
def insert_desc (h : Helper) : List Helper → List Helper
  | [] => [h]
  | h2 :: hs =>
    if h2.effectiveness ≤ h.effectiveness then h :: h2 :: hs
    else h2 :: insert_desc h hs

/-- Stable sort by descending effectiveness, the semantics of
`available_members.sort(key=lambda x: x[effectiveness], reverse=True)`
(CPython sort is stable and `reverse=True` keeps equal keys in original
order). -/
def sort_desc : List Helper → List Helper
  | [] => []
  | h :: hs => insert_desc h (sort_desc hs)

/-- The `available_members` construction: every member below 95 % workload,
with spare capacity, velocity and effectiveness = spare × velocity, sorted
by descending effectiveness. -/
def available_members (overload_analysis : List OverloadAnalysis)
    (team_capacity : List (String × ℚ)) : List Helper :=
  sort_desc ((overload_analysis.filter
      (fun m => decide (m.workload_percentage < 95))).map
    (fun m =>
      { name := m.assignee,
        available_capacity := m.capacity - m.assigned_points,
        current_load_pct := m.workload_percentage,
        velocity := velocity_of team_capacity m.assignee,
        effectiveness := ((m.capacity - m.assigned_points : ℤ) : ℚ) *
          velocity_of team_capacity m.assignee,
        capacity := m.capacity,
        assigned := m.assigned_points }))

/-- The `for helper in potential_helpers[:3]` allocation loop: stop when the
remainder is gone; allocate `min(max(3, int(min(int(remaining*0.5),
spare) * velocity)), spare, remaining)` points; allocations below 3 points
are skipped without reducing the remainder. -/
def distribute_to_helpers : List Helper → ℤ → List (String × ℤ)
  | [], _ => []
  | helper :: hs, remaining =>
    if remaining ≤ 0 then []
    else
      let base_allocation :=
        min (pyInt ((remaining : ℚ) * (1/2))) helper.available_capacity
      let velocity_adjusted := pyInt ((base_allocation : ℚ) * helper.velocity)
      let points_to_allocate :=
        min (min (max 3 velocity_adjusted) helper.available_capacity) remaining
      if 3 ≤ points_to_allocate then
        (helper.name, points_to_allocate) ::
          distribute_to_helpers hs (remaining - points_to_allocate)
      else distribute_to_helpers hs remaining

/-- The per-helper allocation exactly as the amended claim words it: half the
remainder truncated, capped by the spare capacity, scaled by the velocity
multiplier and truncated, raised to at least 3, then capped by the spare
capacity and the remainder. -/
def allocation_as_amended (remaining spare : ℤ) (velocity : ℚ) : ℤ :=
  min (min (max 3 (pyInt (((min (pyInt ((remaining : ℚ) * (1/2))) spare : ℤ) : ℚ) *
    velocity))) spare) remaining

/-- The per-helper allocation exactly as the original claim states it:
`min(max(3, round(0.5 × remaining × helper_velocity)), spare, remaining)`,
with genuine rounding and no spare-capacity cap before the multiplier;
written from the claim, to be compared with `distribute_to_helpers`. -/
def allocation_as_claimed (remaining spare : ℤ) (velocity : ℚ) : ℤ :=
  min (min (max 3 (round ((remaining : ℚ) * (1/2) * velocity))) spare) remaining

/-- The allocation loop as the amended claim words it, built on
`allocation_as_amended`. -/
def distribute_as_amended : List Helper → ℤ → List (String × ℤ)
  | [], _ => []
  | helper :: hs, remaining =>
    if remaining ≤ 0 then []
    else
      let pts := allocation_as_amended remaining helper.available_capacity helper.velocity
      if 3 ≤ pts then
        (helper.name, pts) :: distribute_as_amended hs (remaining - pts)
      else distribute_as_amended hs remaining

/-- The `member_tasks` filter: not-done tasks of at least 8 story points
assigned to the given member. -/
def member_large_tasks (tasks : List TaskInput) (assignee : String) :
    List TaskInput :=
  tasks.filter (fun t =>
    t.assignee == some assignee && t.status != "done" && decide (8 ≤ t.storyPoints))

/-- The body of the per-task loop: skip tasks without a risk record; among
the available members keep those other than the owner with at least 3 points
of spare capacity; the owner retains `max(2, int(points * 0.25))` and the
rest is offered to the top 3 helpers; emit a recommendation only when some
split was produced. -/
def process_task (available : List Helper) (assignee : String)
    (task_risk_analysis : List TaskRiskAnalysis) (t : TaskInput) :
    Option WorkRecommendation :=
  match task_risk_analysis.find? (fun r => r.task_id == t.id) with
  | none => none
  | some _ =>
    let potential_helpers := available.filter
      (fun m => m.name != assignee && decide (3 ≤ m.available_capacity))
    if potential_helpers.isEmpty then none
    else
      let original_keeps := max 2 (pyInt ((t.storyPoints : ℚ) * (1/4)))
      let split_suggestions :=
        distribute_to_helpers (potential_helpers.take 3)
          (t.storyPoints - original_keeps)
      if split_suggestions.isEmpty then none
      else some ⟨t.id, original_keeps, split_suggestions⟩

/-- `process_task` with `distribute_as_amended` in place of the inline loop;
part of the amended-claim formulation. -/
def process_task_as_amended (available : List Helper) (assignee : String)
    (task_risk_analysis : List TaskRiskAnalysis) (t : TaskInput) :
    Option WorkRecommendation :=
  match task_risk_analysis.find? (fun r => r.task_id == t.id) with
  | none => none
  | some _ =>
    let potential_helpers := available.filter
      (fun m => m.name != assignee && decide (3 ≤ m.available_capacity))
    if potential_helpers.isEmpty then none
    else
      let original_keeps := max 2 (pyInt ((t.storyPoints : ℚ) * (1/4)))
      let split_suggestions :=
        distribute_as_amended (potential_helpers.take 3)
          (t.storyPoints - original_keeps)
      if split_suggestions.isEmpty then none
      else some ⟨t.id, original_keeps, split_suggestions⟩

/-- `recommendation_engine.generate_work_distribution_recommendations`:
members above 90 % workload get their first 3 large not-done tasks split
among helpers. -/
def generate_work_distribution_recommendations
    (overload_analysis : List OverloadAnalysis) (tasks : List TaskInput)
    (task_risk_analysis : List TaskRiskAnalysis)
    (team_capacity : List (String × ℚ)) : List WorkRecommendation :=
  let overloaded := overload_analysis.filter
    (fun a => decide (90 < a.workload_percentage))
  let available := available_members overload_analysis team_capacity
  if overloaded.isEmpty || available.isEmpty then []
  else
    overloaded.flatMap (fun m =>
      ((member_large_tasks tasks m.assignee).take 3).filterMap
        (process_task available m.assignee task_risk_analysis))

/-- The whole work-distribution pipeline with the amended allocation rule. -/
def generate_as_amended
    (overload_analysis : List OverloadAnalysis) (tasks : List TaskInput)
    (task_risk_analysis : List TaskRiskAnalysis)
    (team_capacity : List (String × ℚ)) : List WorkRecommendation :=
  let overloaded := overload_analysis.filter
    (fun a => decide (90 < a.workload_percentage))
  let available := available_members overload_analysis team_capacity
  if overloaded.isEmpty || available.isEmpty then []
  else
    overloaded.flatMap (fun m =>
      ((member_large_tasks tasks m.assignee).take 3).filterMap
        (process_task_as_amended available m.assignee task_risk_analysis))

/-- Concrete scenario: alice at 100 % workload holds the 9-point task t1,
bob is idle with 40 points of spare capacity. -/
def wdOverload : List OverloadAnalysis :=
  [{ assignee := "alice", assigned_points := 40, capacity := 40,
     workload_percentage := 100, is_overloaded := false,
     overload_severity := "none" },
   { assignee := "bob", assigned_points := 0, capacity := 40,
     workload_percentage := 0, is_overloaded := false,
     overload_severity := "none" }]

/-- The 9-point not-done task of alice in the concrete scenario. -/
def wdTasks : List TaskInput :=
  [{ id := "t1", name := "Big", assignee := some "alice", storyPoints := 9,
     status := "todo" }]

/-- The risk record of t1 in the concrete scenario. -/
def wdRisks : List TaskRiskAnalysis :=
  [{ task_id := "t1", task_name := "Big", total_risk_score := 50,
     risk_level := "moderate" }]

end RecommendationEngine

namespace MainApi

/-- `models.TaskInput.validate_status`: invalid statuses coerce to "todo". -/
def validate_status (v : String) : String :=
  if v = "todo" ∨ v = "in-progress" ∨ v = "done" then v else "todo"

/-- `models.TaskInput.validate_story_points`: unparseable or falsy input
(modelled as `none`) becomes 0, then the value is clamped to [0, 100]. -/
def validate_story_points (v : Option ℤ) : ℤ :=
  max 0 (min 100 (match v with | none => 0 | some n => n))

/-- `models.TaskInput.validate_date`: falsy input → `none`, otherwise the
result of `parse_date` (which is `none` exactly on unparseable input). -/
def validate_dueDate (parse : String → Option String) (v : Option String) : Option String :=
  match v with
  | none => none
  | some s => parse s

/-- The `/planning/analyze` endpoint guard (`main.analyze_planning`): an empty
task list raises HTTP 400 before `planning_service.analyze_planning` runs;
the computation itself is abstracted as `analysis`. -/
def analyze_planning_endpoint {α : Type} (analysis : List TaskInput → α)
    (tasks : List TaskInput) : Except (ℕ × String) α :=
  if tasks.isEmpty then Except.error (400, "No tasks provided for analysis")
  else Except.ok (analysis tasks)

end MainApi

/-! ## Theorems -/

section Claims

open VelocityCalculator RiskEngine WorkloadAnalyzer DependencyAnalyzer PlanningService RecommendationEngine MainApi

/-- C1, counterexample: at `sprints_needed = 21/10` and `planned_sprints = 2`,
`predict_release_delay` returns `int(0.1 * 14) = 1`, while the claimed
ceiling of `(21/10 − 2) × 14 = 7/5` is `2`. -/
theorem predict_release_delay_cex :
    predict_release_delay (21/10) 2 = 1 ∧ ⌈((21/10 : ℚ) - 2) * 14⌉ = 2 ∧ (1 : ℤ) ≠ 2 := by
  refine ⟨?_, ?_, by norm_num⟩
  · have h1 : ¬ ((21/10 : ℚ) ≤ (2 : ℤ)) := by norm_num
    have h2 : ((21/10 : ℚ) - (2 : ℤ)) * 14 = 7/5 := by norm_num
    have h3 : (0 : ℚ) ≤ 7/5 := by norm_num
    simp only [predict_release_delay, pyInt, h1, if_false, h2, h3, if_true]
    exact Int.floor_eq_iff.mpr (by norm_num)
  · exact Int.ceil_eq_iff.mpr (by norm_num)

/-- C1 (amended): `predict_release_delay(s, p)` returns 0 when `s ≤ p`, and
otherwise returns `(s − p) × 14` truncated toward zero — for this positive
quantity, the greatest integer not exceeding it (floor), not the ceiling. -/
theorem predict_release_delay_spec (s : ℚ) (p : ℤ) :
    (s ≤ (p : ℚ) → predict_release_delay s p = 0) ∧
    ((p : ℚ) < s →
      (predict_release_delay s p : ℚ) ≤ (s - p) * 14 ∧
      (s - p) * 14 - 1 < (predict_release_delay s p : ℚ)) := by
  constructor
  · intro h
    simp [predict_release_delay, h]
  · intro h
    have hns : ¬ (s ≤ (p : ℚ)) := not_le.mpr h
    have hpos : (0 : ℚ) ≤ (s - (p : ℚ)) * 14 := by nlinarith
    simp only [predict_release_delay, pyInt, hns, if_false, hpos, if_true]
    exact ⟨Int.floor_le _, Int.sub_one_lt_floor _⟩

/-- C1, witness for `predict_release_delay_spec` at `s = 5/2`, `p = 1`. -/
theorem predict_release_delay_spec_w :
    (predict_release_delay (5/2) 1 : ℚ) ≤ ((5/2 : ℚ) - (1 : ℤ)) * 14 ∧
    ((5/2 : ℚ) - (1 : ℤ)) * 14 - 1 < (predict_release_delay (5/2) 1 : ℚ) :=
  (predict_release_delay_spec (5/2) 1).2 (by norm_num)

/-- C6: the deadline risk factor is 30 when the due date is missing or
unparseable, and otherwise is determined by the days until due:
negative → 100, ≤ 2 → 90, ≤ 5 → 70, ≤ 10 → 50, ≤ 20 → 30, > 20 → 10;
in particular due in 1 day → 90 and overdue by 1 day → 100. -/
theorem calculate_deadline_risk_spec :
    calculate_deadline_risk none = 30 ∧
    (∀ d : ℤ,
      (d < 0 → calculate_deadline_risk (some d) = 100) ∧
      (0 ≤ d ∧ d ≤ 2 → calculate_deadline_risk (some d) = 90) ∧
      (2 < d ∧ d ≤ 5 → calculate_deadline_risk (some d) = 70) ∧
      (5 < d ∧ d ≤ 10 → calculate_deadline_risk (some d) = 50) ∧
      (10 < d ∧ d ≤ 20 → calculate_deadline_risk (some d) = 30) ∧
      (20 < d → calculate_deadline_risk (some d) = 10)) ∧
    calculate_deadline_risk (some 1) = 90 ∧
    calculate_deadline_risk (some (-1)) = 100 := by
  refine ⟨rfl, ?_, by decide, by decide⟩
  intro d
  refine ⟨?_, ?_, ?_, ?_, ?_, ?_⟩ <;>
    · intro hd
      simp only [calculate_deadline_risk]
      split_ifs <;> omega

/-- C6, witness for `calculate_deadline_risk_spec`: the 6–10-day band at
`d = 7` gives risk 50. -/
theorem calculate_deadline_risk_spec_w : calculate_deadline_risk (some 7) = 50 :=
  (calculate_deadline_risk_spec.2.1 7).2.2.2.1 (by norm_num)

/-- C8: `calculate_complexity_risk` is monotonically non-decreasing in the
story-point value and its result always lies within [0, 100]. -/
theorem calculate_complexity_risk_spec (p q : ℤ) (hpq : p ≤ q) :
    calculate_complexity_risk p ≤ calculate_complexity_risk q ∧
    0 ≤ calculate_complexity_risk p ∧ calculate_complexity_risk p ≤ 100 := by
  refine ⟨?_, ?_, ?_⟩ <;>
    · simp only [calculate_complexity_risk]
      split_ifs <;> omega

/-- C8, witness for `calculate_complexity_risk_spec` at `p = 2 ≤ q = 9`. -/
theorem calculate_complexity_risk_spec_w :
    calculate_complexity_risk 2 ≤ calculate_complexity_risk 9 ∧
    0 ≤ calculate_complexity_risk 2 ∧ calculate_complexity_risk 2 ≤ 100 :=
  calculate_complexity_risk_spec 2 9 (by norm_num)

/-- C7, counterexample: for the two-entry history [10, 11] the code compares
the two sprints directly and returns "increasing", while the claimed
10 %-threshold rule (11 is not above the prior mean 10 plus 10 %) yields
"stable". -/
theorem calculate_velocity_trend_cex :
    calculate_velocity_trend [10, 11] = "increasing" ∧
    velocity_trend_as_specified [10, 11] = "stable" ∧
    "increasing" ≠ "stable" := by
  have e1 : (([10, 11] : List ℤ).getLast?).getD 0 = 11 := rfl
  have e2 : (([10, 11] : List ℤ).dropLast) = [10] := rfl
  refine ⟨by decide, ?_, by decide⟩
  simp only [velocity_trend_as_specified, e1, e2]
  norm_num

/-- C7 (amended): fewer than 2 entries → "unknown"; exactly 2 entries are
compared directly (latest against previous, no threshold); for 3 or more
entries the latest sprint is compared to the mean of all prior sprints with
the 10 % relative-deviation threshold. -/
theorem calculate_velocity_trend_spec (h : List ℤ) :
    (h.length < 2 → calculate_velocity_trend h = "unknown") ∧
    (∀ a b : ℤ, calculate_velocity_trend [a, b] =
      (if a < b then "increasing" else if b < a then "decreasing" else "stable")) ∧
    (3 ≤ h.length →
      ((((h.dropLast).sum : ℚ) / ((h.dropLast).length : ℚ)) * (1 + 1/10) <
          (((h.getLast?).getD 0 : ℤ) : ℚ) →
        calculate_velocity_trend h = "increasing") ∧
      ((((h.getLast?).getD 0 : ℤ) : ℚ) ≤
          (((h.dropLast).sum : ℚ) / ((h.dropLast).length : ℚ)) * (1 + 1/10) →
       (((h.getLast?).getD 0 : ℤ) : ℚ) <
          (((h.dropLast).sum : ℚ) / ((h.dropLast).length : ℚ)) * (1 - 1/10) →
        calculate_velocity_trend h = "decreasing") ∧
      ((((h.dropLast).sum : ℚ) / ((h.dropLast).length : ℚ)) * (1 - 1/10) ≤
          (((h.getLast?).getD 0 : ℤ) : ℚ) →
       (((h.getLast?).getD 0 : ℤ) : ℚ) ≤
          (((h.dropLast).sum : ℚ) / ((h.dropLast).length : ℚ)) * (1 + 1/10) →
        calculate_velocity_trend h = "stable")) := by
  refine ⟨?_, ?_, ?_⟩
  · intro h2
    simp [calculate_velocity_trend, h2]
  · intro a b
    have e1 : (([a, b] : List ℤ).getLast?).getD 0 = b := rfl
    have e2 : ((([a, b] : List ℤ).dropLast).getLast?).getD 0 = a := rfl
    simp only [calculate_velocity_trend, List.length_cons, List.length_nil, e1, e2]
    norm_num
  · intro h3
    have h2 : ¬ (h.length < 2) := by omega
    have h3n : ¬ (h.length < 3) := by omega
    set last : ℚ := (((h.getLast?).getD 0 : ℤ) : ℚ) with hlast
    set avg : ℚ := ((h.dropLast).sum : ℚ) / ((h.dropLast).length : ℚ) with havg
    have key : calculate_velocity_trend h =
        (if avg + avg * (1/10) < last then "increasing"
         else if last < avg - avg * (1/10) then "decreasing"
         else "stable") := by
      simp only [calculate_velocity_trend, if_neg h2, if_neg h3n]
    have ring1 : avg + avg * (1/10) = avg * (1 + 1/10) := by ring
    have ring2 : avg - avg * (1/10) = avg * (1 - 1/10) := by ring
    refine ⟨?_, ?_, ?_⟩
    · intro hi
      rw [key, if_pos (by linarith)]
    · intro hd1 hd
      rw [key, if_neg (by linarith), if_pos (by linarith)]
    · intro hs1 hs2
      rw [key, if_neg (by linarith), if_neg (by linarith)]

/-- C7, witness for `calculate_velocity_trend_spec`: history [10, 10, 20]
(latest 20 above the prior mean 10 plus 10 %) yields "increasing". -/
theorem calculate_velocity_trend_spec_w :
    calculate_velocity_trend [10, 10, 20] = "increasing" := by
  have e1 : (([10, 10, 20] : List ℤ).getLast?).getD 0 = 20 := rfl
  have e2 : (([10, 10, 20] : List ℤ).dropLast) = [10, 10] := rfl
  refine ((calculate_velocity_trend_spec [10, 10, 20]).2.2 (by norm_num)).1 ?_
  rw [e1, e2]
  norm_num

/-- C4, counterexample: with 2 assigned points and capacity 3 the code
truncates `(2/3) × 100` to 66, while the claimed rounding gives 67. -/
theorem calculate_capacity_percentage_cex :
    calculate_capacity_percentage 2 3 = 66 ∧
    round ((2 : ℚ) / 3 * 100) = 67 ∧ (66 : ℤ) ≠ 67 := by
  refine ⟨?_, ?_, by norm_num⟩
  · have h0 : ¬ ((3 : ℤ) = 0) := by norm_num
    have hq : (0 : ℚ) ≤ ((2 : ℤ) : ℚ) / ((3 : ℤ) : ℚ) * 100 := by norm_num
    simp only [calculate_capacity_percentage, pyInt, if_neg h0, if_pos hq]
    have he : ((2 : ℤ) : ℚ) / ((3 : ℤ) : ℚ) * 100 = 200/3 := by norm_num
    rw [he]
    exact Int.floor_eq_iff.mpr (by norm_num)
  · rw [round_eq]
    exact Int.floor_eq_iff.mpr (by norm_num)

/-- C4 (amended): for positive capacity the workload percentage is
`(a/c) × 100` truncated toward zero (the greatest integer not exceeding it),
not rounded; with capacity 0 the result is 0 for 0 assigned points and the
sentinel 999 otherwise; and the member with capacity 40 and 60 assigned
points gets workload_percentage 150, severity "high", is_overloaded true. -/
theorem capacity_percentage_spec :
    (∀ a c : ℤ, 0 ≤ a → 0 < c →
      ((calculate_capacity_percentage a c : ℚ) ≤ (a : ℚ) / (c : ℚ) * 100 ∧
       (a : ℚ) / (c : ℚ) * 100 - 1 < (calculate_capacity_percentage a c : ℚ))) ∧
    calculate_capacity_percentage 0 0 = 0 ∧
    (∀ a : ℤ, a ≠ 0 → calculate_capacity_percentage a 0 = 999) ∧
    detect_overloaded_members [("dev", 60)] [⟨"dev", 40⟩] =
      [{ assignee := "dev", assigned_points := 60, capacity := 40,
         workload_percentage := 150, is_overloaded := true,
         overload_severity := "high" }] := by
  have hpct : calculate_capacity_percentage 60 40 = 150 := by
    have h0 : ¬ ((40 : ℤ) = 0) := by norm_num
    have hq : (0 : ℚ) ≤ ((60 : ℤ) : ℚ) / ((40 : ℤ) : ℚ) * 100 := by norm_num
    simp only [calculate_capacity_percentage, pyInt, if_neg h0, if_pos hq]
    have he : ((60 : ℤ) : ℚ) / ((40 : ℤ) : ℚ) * 100 = 150 := by norm_num
    rw [he]
    exact Int.floor_eq_iff.mpr (by norm_num)
  have hcap : ((([⟨"dev", 40⟩] : List TeamMember).reverse.find?
      (fun m => m.name == "dev")).map TeamMember.capacity).getD 40 = 40 := rfl
  refine ⟨?_, rfl, ?_, ?_⟩
  case refine_3 =>
    simp only [detect_overloaded_members, List.filterMap_cons, List.filterMap_nil]
    norm_num [hcap, hpct]
    decide
  · intro a c ha hc
    have hc0 : ¬ (c = 0) := by omega
    have ha0 : (0 : ℚ) ≤ (a : ℚ) := by exact_mod_cast ha
    have hcq : (0 : ℚ) < (c : ℚ) := by exact_mod_cast hc
    have hq : (0 : ℚ) ≤ (a : ℚ) / (c : ℚ) * 100 := by positivity
    simp only [calculate_capacity_percentage, pyInt, if_neg hc0, if_pos hq]
    exact ⟨Int.floor_le _, Int.sub_one_lt_floor _⟩
  · intro a ha
    simp [calculate_capacity_percentage, ha]

/-- C4, witness for `capacity_percentage_spec` at 1 assigned point and
capacity 2. -/
theorem capacity_percentage_spec_w :
    (calculate_capacity_percentage 1 2 : ℚ) ≤ ((1 : ℤ) : ℚ) / ((2 : ℤ) : ℚ) * 100 ∧
    ((1 : ℤ) : ℚ) / ((2 : ℤ) : ℚ) * 100 - 1 < (calculate_capacity_percentage 1 2 : ℚ) :=
  capacity_percentage_spec.1 1 2 (by norm_num) (by norm_num)

/-- C2, code_bug evidence: on the dependency cycle A→B→C→A the recursive
dependency-chain depth computation of `calculate_dependency_depth` never
completes regardless of the step bound (the source recursion has no visited
set), and `find_critical_path` — which calls it on every task — never
completes either, contradicting the claimed totality bounded by the input
task count. -/
theorem dependency_depth_cycle_nonterminating :
    (∀ fuel : ℕ,
      calculate_dependency_depth (build_dependency_graph cyclicTasks) fuel "A" = none ∧
      calculate_dependency_depth (build_dependency_graph cyclicTasks) fuel "B" = none ∧
      calculate_dependency_depth (build_dependency_graph cyclicTasks) fuel "C" = none) ∧
    (∀ fuel : ℕ, find_critical_path cyclicTasks fuel = none) := by
  have hlA : lookupG [("A", ["B"]), ("B", ["C"]), ("C", ["A"])] "A" = some ["B"] := rfl
  have hlB : lookupG [("A", ["B"]), ("B", ["C"]), ("C", ["A"])] "B" = some ["C"] := rfl
  have hlC : lookupG [("A", ["B"]), ("B", ["C"]), ("C", ["A"])] "C" = some ["A"] := rfl
  have hG : build_dependency_graph cyclicTasks =
      [("A", ["B"]), ("B", ["C"]), ("C", ["A"])] := rfl
  have main : ∀ fuel : ℕ,
      calculate_dependency_depth [("A", ["B"]), ("B", ["C"]), ("C", ["A"])] fuel "A" = none ∧
      calculate_dependency_depth [("A", ["B"]), ("B", ["C"]), ("C", ["A"])] fuel "B" = none ∧
      calculate_dependency_depth [("A", ["B"]), ("B", ["C"]), ("C", ["A"])] fuel "C" = none := by
    intro fuel
    induction fuel with
    | zero => exact ⟨rfl, rfl, rfl⟩
    | succ f ih =>
      refine ⟨?_, ?_, ?_⟩
      · simp only [calculate_dependency_depth, hlA, depth_fold, ih.2.1]
      · simp only [calculate_dependency_depth, hlB, depth_fold, ih.2.2]
      · simp only [calculate_dependency_depth, hlC, depth_fold, ih.1]
  constructor
  · intro fuel
    rw [hG]
    exact main fuel
  · intro fuel
    have h1 := (main fuel).1
    simp only [find_critical_path, hG]
    simp only [cyclicTasks, max_depth_scan, h1]

/-- C10: the critical-issues list is never empty, and when none of the five
thresholds is met (no critical-level task, nobody above 150 % workload, at
most 3 blocked tasks, predicted delay at most 7 days, at most 5 tasks of
complexity factor above 70) it is exactly ["No critical issues detected"]. -/
theorem identify_critical_issues_spec (tra : List TaskRiskAnalysis)
    (oa : List WorkloadAnalyzer.OverloadAnalysis) (bt : List String) (delay : ℤ) :
    identify_critical_issues tra oa bt delay ≠ [] ∧
    (tra.filter (fun t => t.risk_level == "critical") = [] →
     oa.filter (fun o => decide (150 < o.workload_percentage)) = [] →
     bt.length ≤ 3 → delay ≤ 7 →
     (tra.filter (fun t => decide (70 < t.rf_complexity))).length ≤ 5 →
     identify_critical_issues tra oa bt delay = ["No critical issues detected"]) := by
  constructor
  · simp only [identify_critical_issues]
    split_ifs <;> simp_all
  · intro h1 h2 h3 h4 h5
    have n3 : ¬ 3 < bt.length := by omega
    have n4 : ¬ 7 < delay := by omega
    have n5 : ¬ 5 < (tra.filter (fun t => decide (70 < t.rf_complexity))).length := by omega
    simp [identify_critical_issues, h1, h2, n3, n4, n5]

/-- C10, witness for `identify_critical_issues_spec` on an analysis with no
issues at all. -/
theorem identify_critical_issues_spec_w :
    identify_critical_issues [] [] [] 0 = ["No critical issues detected"] :=
  (identify_critical_issues_spec [] [] [] 0).2 rfl rfl (by norm_num) (by norm_num)
    (by norm_num)

/-- C9: a request with an empty task list is rejected with HTTP 400 before
the analysis computation runs (for every possible analysis function, so no
partial report can be emitted), while the per-field validators coerce instead
of rejecting: an invalid status becomes "todo" (valid ones pass through),
story points always land in [0, 100], and an unparseable due date becomes
absent. -/
theorem planning_input_validation_spec :
    (∀ (α : Type) (analysis : List TaskInput → α),
      analyze_planning_endpoint analysis [] =
        Except.error (400, "No tasks provided for analysis")) ∧
    (∀ v : String, v ≠ "todo" → v ≠ "in-progress" → v ≠ "done" →
      validate_status v = "todo") ∧
    (validate_status "todo" = "todo" ∧ validate_status "in-progress" = "in-progress" ∧
      validate_status "done" = "done") ∧
    (∀ v : Option ℤ, 0 ≤ validate_story_points v ∧ validate_story_points v ≤ 100) ∧
    (∀ (parse : String → Option String) (s : String), parse s = none →
      validate_dueDate parse (some s) = none) := by
  refine ⟨fun α analysis => rfl, ?_, ⟨by decide, by decide, by decide⟩, ?_, ?_⟩
  · intro v h1 h2 h3
    simp [validate_status, h1, h2, h3]
  · intro v
    exact ⟨le_max_left 0 _, max_le (by norm_num) (min_le_left 100 _)⟩
  · intro parse s hs
    simp [validate_dueDate, hs]

/-- C9, witness for `planning_input_validation_spec`: the invalid status
"blocked" is coerced to "todo". -/
theorem planning_input_validation_spec_w : validate_status "blocked" = "todo" :=
  planning_input_validation_spec.2.1 "blocked" (by decide) (by decide) (by decide)

/-- Helper for C3: a successful graph lookup exhibits a graph entry. -/
lemma lookupG_mem : ∀ {g : Graph} {x : String} {l : List String},
    lookupG g x = some l → (x, l) ∈ g := by
  intro g
  induction g with
  | nil => intro x l h; simp [lookupG] at h
  | cons p rest ih =>
    intro x l h
    obtain ⟨k0, v0⟩ := p
    simp only [lookupG] at h
    split at h
    · rename_i hk
      cases h
      exact hk ▸ List.mem_cons_self _ _
    · exact List.mem_cons_of_mem _ (ih h)

/-- Helper for C3: a key with a successful lookup is a node of the graph. -/
lemma mem_allNodes_key {g : Graph} {x : String} {l : List String}
    (h : lookupG g x = some l) : x ∈ allNodes g := by
  simp only [allNodes, Finset.mem_union, List.mem_toFinset, List.mem_map]
  exact Or.inl ⟨(x, l), lookupG_mem h, rfl⟩

/-- Helper for C3: every listed dependency target is a node of the graph. -/
lemma mem_allNodes_dep {g : Graph} {x d : String} {l : List String}
    (h : lookupG g x = some l) (hd : d ∈ l) : d ∈ allNodes g := by
  simp only [allNodes, Finset.mem_union, List.mem_toFinset, List.mem_flatten,
    List.mem_map]
  exact Or.inr ⟨l, ⟨(x, l), lookupG_mem h, rfl⟩, hd⟩

/-- Helper for C3: along a rank function that strictly decreases on every
dependency edge, reachability forces a non-increasing rank. -/
lemma reaches_rank {g : Graph} {rank : String → ℕ}
    (hr : ∀ a b, hasEdge g a b → rank b < rank a) {a b : String}
    (h : Reaches g a b) : rank b ≤ rank a := by
  induction h with
  | refl => exact le_refl _
  | tail hab e ih => exact le_trans (hr _ _ e).le ih

/-- Helper for C3: on a ranked (hence acyclic) graph the dependency loop of
the DFS finds no cycle, leaves the recursion stack and cycle list untouched,
and only grows the visited set. -/
lemma dfs_deps_acyclic {g : Graph} {rank : String → ℕ}
    (hr : ∀ a b, hasEdge g a b → rank b < rank a) (f : ℕ)
    (IH : ∀ x path st, (allNodes g \ st.visited).card < f → x ∉ st.visited →
      st.recStack ⊆ st.visited → (∀ y ∈ st.recStack, Reaches g y x) →
      ∃ v2, dfs g f x path st = some (false, ⟨v2, st.recStack, st.cycles⟩) ∧
        st.visited ⊆ v2) :
    ∀ (ds : List String) (x : String) (path : List String) (st : DfsState),
      (∀ d ∈ ds, hasEdge g x d) →
      (allNodes g \ st.visited).card < f →
      st.recStack ⊆ st.visited →
      (∀ y ∈ st.recStack, Reaches g y x) →
      ∃ v2, dfs_deps g (dfs g f) ds path st =
          some (false, ⟨v2, st.recStack, st.cycles⟩) ∧ st.visited ⊆ v2 := by
  intro ds
  induction ds with
  | nil =>
    intro x path st hds hcard hrs hreach
    exact ⟨st.visited, rfl, Finset.Subset.refl _⟩
  | cons d ds ih =>
    intro x path st hds hcard hrs hreach
    by_cases hv : d ∈ st.visited
    · by_cases hstack : d ∈ st.recStack
      · exfalso
        have h1 : Reaches g d x := hreach d hstack
        have h2 : hasEdge g x d := hds d (List.mem_cons_self d ds)
        have h3 : rank x ≤ rank d := reaches_rank hr h1
        have h4 : rank d < rank x := hr x d h2
        omega
      · have heq : dfs_deps g (dfs g f) (d :: ds) path st =
            dfs_deps g (dfs g f) ds path st := by
          simp only [dfs_deps, if_neg (not_not_intro hv), if_neg hstack]
        rw [heq]
        exact ih x path st (fun e he => hds e (List.mem_cons_of_mem _ he)) hcard hrs hreach
    · have hedge : hasEdge g x d := hds d (List.mem_cons_self d ds)
      have hreach2 : ∀ y ∈ st.recStack, Reaches g y d :=
        fun y hy => Relation.ReflTransGen.tail (hreach y hy) hedge
      obtain ⟨v2, hrec, hsub⟩ := IH d path st hcard hv hrs hreach2
      have heq : dfs_deps g (dfs g f) (d :: ds) path st =
          dfs_deps g (dfs g f) ds path ⟨v2, st.recStack, st.cycles⟩ := by
        simp only [dfs_deps, if_pos hv, hrec]
      have hcard2 : (allNodes g \ v2).card < f :=
        lt_of_le_of_lt
          (Finset.card_le_card (Finset.sdiff_subset_sdiff (Finset.Subset.refl _) hsub))
          hcard
      obtain ⟨v3, hrest, hsub2⟩ := ih x path ⟨v2, st.recStack, st.cycles⟩
        (fun e he => hds e (List.mem_cons_of_mem _ he)) hcard2 (hrs.trans hsub) hreach
      exact ⟨v3, heq.trans hrest, hsub.trans hsub2⟩

/-- Helper for C3: on a ranked graph every DFS call that has enough fuel
returns `False` with the recursion stack restored, the cycle list untouched,
and the visited set grown. -/
lemma dfs_acyclic {g : Graph} {rank : String → ℕ}
    (hr : ∀ a b, hasEdge g a b → rank b < rank a) :
    ∀ (f : ℕ) (x : String) (path : List String) (st : DfsState),
      (allNodes g \ st.visited).card < f → x ∉ st.visited →
      st.recStack ⊆ st.visited → (∀ y ∈ st.recStack, Reaches g y x) →
      ∃ v2, dfs g f x path st = some (false, ⟨v2, st.recStack, st.cycles⟩) ∧
        st.visited ⊆ v2 := by
  intro f
  induction f with
  | zero => intro x path st hcard hx hrs hreach; omega
  | succ f ihf =>
    intro x path st hcard hx hrs hreach
    have hxR : x ∉ st.recStack := fun hc => hx (hrs hc)
    have hrs1 : insert x st.recStack ⊆ insert x st.visited :=
      Finset.insert_subset_insert _ hrs
    have hreach1 : ∀ y ∈ insert x st.recStack, Reaches g y x := by
      intro y hy
      rcases Finset.mem_insert.mp hy with h | h
      · exact h ▸ Relation.ReflTransGen.refl
      · exact hreach y h
    cases hl : lookupG g x with
    | none =>
      refine ⟨insert x st.visited, ?_, Finset.subset_insert _ _⟩
      simp only [dfs, hl, Option.getD_none, dfs_deps]
      rw [Finset.erase_insert hxR]
    | some l =>
      have hxA : x ∈ allNodes g := mem_allNodes_key hl
      have hcard1 : (allNodes g \ insert x st.visited).card < f := by
        have hxm : x ∈ allNodes g \ st.visited := Finset.mem_sdiff.mpr ⟨hxA, hx⟩
        have he : allNodes g \ insert x st.visited = (allNodes g \ st.visited).erase x :=
          Finset.sdiff_insert _ _ _
        have hc := Finset.card_erase_of_mem hxm
        have hpos : 0 < (allNodes g \ st.visited).card := Finset.card_pos.mpr ⟨x, hxm⟩
        rw [he, hc]
        omega
      have hdeps : ∀ d ∈ l, hasEdge g x d := fun d hd => ⟨l, hl, hd⟩
      obtain ⟨v2, hloop, hsub⟩ := dfs_deps_acyclic hr f ihf l x (path ++ [x])
        ⟨insert x st.visited, insert x st.recStack, st.cycles⟩ hdeps hcard1 hrs1 hreach1
      refine ⟨v2, ?_, (Finset.subset_insert _ _).trans hsub⟩
      simp only [dfs, hl, Option.getD_some, hloop]
      rw [Finset.erase_insert hxR]

/-- Helper for C3: on a ranked graph the driver loop completes with an empty
cycle list from any start state with empty recursion stack and no cycles. -/
lemma detect_loop_acyclic {g : Graph} {rank : String → ℕ}
    (hr : ∀ a b, hasEdge g a b → rank b < rank a) :
    ∀ (tids : List String) (v : Finset String),
      ∃ v2, detect_loop g ((allNodes g).card + 1) tids ⟨v, ∅, []⟩ =
        some ⟨v2, ∅, []⟩ := by
  intro tids
  induction tids with
  | nil => intro v; exact ⟨v, rfl⟩
  | cons tid rest ih =>
    intro v
    by_cases hv : tid ∈ v
    · have heq : detect_loop g ((allNodes g).card + 1) (tid :: rest) ⟨v, ∅, []⟩ =
          detect_loop g ((allNodes g).card + 1) rest ⟨v, ∅, []⟩ := by
        simp only [detect_loop, if_neg (not_not_intro hv)]
      rw [heq]
      exact ih v
    · have hcard : (allNodes g \ v).card < (allNodes g).card + 1 :=
        Nat.lt_succ_of_le (Finset.card_le_card Finset.sdiff_subset)
      obtain ⟨v2, hdfs, _⟩ := dfs_acyclic hr ((allNodes g).card + 1) tid [] ⟨v, ∅, []⟩
        hcard hv (Finset.empty_subset _) (by intro y hy; simp at hy)
      have heq : detect_loop g ((allNodes g).card + 1) (tid :: rest) ⟨v, ∅, []⟩ =
          detect_loop g ((allNodes g).card + 1) rest ⟨v2, ∅, []⟩ := by
        simp only [detect_loop, if_pos hv, hdfs]
      rw [heq]
      exact ih v2

/-- C3: for the dependency cycle A→B→C→A the detector returns exactly one
cycle, whose members are {A, B, C}; for the two independent cycles A→B→A and
C→D→C both are reported; and for every task list whose dependency graph
admits a rank function strictly decreasing along edges (equivalently, is
acyclic) it returns the empty list. -/
theorem detect_circular_dependencies_spec :
    detect_circular_dependencies cyclicTasks = some [["A", "B", "C", "A"]] ∧
    detect_circular_dependencies twoCycleTasks =
      some [["A", "B", "A"], ["C", "D", "C"]] ∧
    (∀ (tasks : List TaskInput) (rank : String → ℕ),
      (∀ a b, hasEdge (build_dependency_graph tasks) a b → rank b < rank a) →
      detect_circular_dependencies tasks = some []) := by
  refine ⟨by decide, by decide, ?_⟩
  intro tasks rank hr
  obtain ⟨v2, hloop⟩ := detect_loop_acyclic hr (tasks.map TaskInput.id) ∅
  rw [detect_circular_dependencies, hloop]
  rfl

/-- C3, witness for `detect_circular_dependencies_spec`: the acyclic chain
X→Y (ranked X ↦ 1, Y ↦ 0) yields no cycles. -/
theorem detect_circular_dependencies_spec_w :
    detect_circular_dependencies chainTasks = some [] := by
  refine detect_circular_dependencies_spec.2.2 chainTasks
    (fun s => if s = "X" then 1 else 0) ?_
  intro a b hab
  obtain ⟨l, hl, hb⟩ := hab
  have hG : build_dependency_graph chainTasks = [("X", ["Y"]), ("Y", [])] := rfl
  rw [hG] at hl
  simp only [lookupG] at hl
  split at hl
  · rename_i hXa
    cases hl
    simp only [List.mem_singleton] at hb
    subst hb
    rw [← hXa]
    decide
  · split at hl
    · rename_i hYa
      cases hl
      simp at hb
    · cases hl

/-- Helper for C5: the inline allocation loop of the source equals the loop
written with the amended allocation formula. -/
lemma distribute_eq : ∀ (hs : List Helper) (r : ℤ),
    distribute_to_helpers hs r = distribute_as_amended hs r := by
  intro hs
  induction hs with
  | nil => intro r; rfl
  | cons h t ih =>
    intro r
    simp only [distribute_to_helpers, distribute_as_amended, allocation_as_amended]
    split_ifs with h1 h2
    · rfl
    · rw [ih]
    · rw [ih]

/-- Helper for C5: the per-task processing with either loop agrees. -/
lemma process_eq : process_task = process_task_as_amended := by
  funext av a risks t
  simp only [process_task, process_task_as_amended, distribute_eq]

/-- Helper for C5: every emitted allocation is at least 3 points. -/
lemma amended_min3 : ∀ (hs : List Helper) (r : ℤ) (p : String × ℤ),
    p ∈ distribute_as_amended hs r → 3 ≤ p.2 := by
  intro hs
  induction hs with
  | nil => intro r p hp; simp [distribute_as_amended] at hp
  | cons h t ih =>
    intro r p hp
    simp only [distribute_as_amended] at hp
    split_ifs at hp with h1 h2
    · simp at hp
    · rcases List.mem_cons.mp hp with h3 | h3
      · rw [h3]; exact h2
      · exact ih _ p h3
    · exact ih _ p hp

/-- Helper for C5: the allocations never exceed the distribution pool. -/
lemma amended_sum_le : ∀ (hs : List Helper) (r : ℤ),
    ((distribute_as_amended hs r).map Prod.snd).sum ≤ max r 0 := by
  intro hs
  induction hs with
  | nil => intro r; simp [distribute_as_amended, le_max_right]
  | cons h t ih =>
    intro r
    simp only [distribute_as_amended]
    split_ifs with h1 h2
    · simp [le_max_right]
    · have hr0 : (0 : ℤ) ≤ r := by omega
      have hple : allocation_as_amended r h.available_capacity h.velocity ≤ r :=
        min_le_right _ _
      have hih := ih (r - allocation_as_amended r h.available_capacity h.velocity)
      rw [max_eq_left (by omega)] at hih
      rw [max_eq_left hr0]
      simp only [List.map_cons, List.sum_cons]
      omega
    · exact ih r

/-- C5, counterexample: alice (100 % loaded) holds the 9-point task t1 and
bob has 40 points of spare capacity at velocity 1. The engine keeps
`max(2, int(9 × 0.25)) = 2` with alice and allocates `int(int(7 × 0.5) × 1)
= 3` points to bob, while the claimed formula
`min(max(3, round(0.5 × 7 × 1)), 40, 7)` yields 4. -/
theorem work_distribution_cex :
    generate_work_distribution_recommendations wdOverload wdTasks wdRisks [] =
      [{ task_id := "t1", original_keeps := 2, split_suggestions := [("bob", 3)] }] ∧
    allocation_as_claimed 7 40 1 = 4 ∧ ((3 : ℤ) ≠ 4) := by
  refine ⟨?_, ?_, by norm_num⟩
  · simp [generate_work_distribution_recommendations, wdOverload, wdTasks, wdRisks,
      available_members, velocity_of, sort_desc, insert_desc, member_large_tasks,
      process_task, distribute_to_helpers, pyInt]
    simp [List.filterMap_cons, process_task, distribute_to_helpers]
    have hA1 : pyInt ((9 : ℚ) * 4⁻¹) = 2 := by
      simp only [pyInt, if_pos (by norm_num : (0:ℚ) ≤ (9 : ℚ) * 4⁻¹)]
      exact Int.floor_eq_iff.mpr (by norm_num)
    have hA2v : pyInt ((7 : ℚ) / 2) = 3 := by
      simp only [pyInt, if_pos (by norm_num : (0:ℚ) ≤ (7 : ℚ) / 2)]
      exact Int.floor_eq_iff.mpr (by norm_num)
    have hA4 : pyInt ((3 : ℚ)) = 3 := by
      simp only [pyInt, if_pos (by norm_num : (0:ℚ) ≤ (3 : ℚ))]
      exact Int.floor_eq_iff.mpr (by norm_num)
    simp only [hA1]
    norm_num [hA2v, hA4]
  · have hr : round ((7 : ℚ) / 2) = 4 := by
      rw [round_eq]
      exact Int.floor_eq_iff.mpr (by norm_num)
    simp only [allocation_as_claimed]
    norm_num [hr]

/-- C5 (amended): the engine equals the pipeline in which the owner keeps
`max(2, ⌊0.25 × points⌋)` and each helper, iterated in descending
effectiveness order among up to 3 helpers with at least 3 spare points,
receives `min(max(3, ⌊min(⌊0.5 × remaining⌋, spare) × velocity⌋), spare,
remaining)` points — the half-remainder is truncated (not rounded) and
capped by the spare capacity before the velocity multiplier — where
computed allocations below 3 points are skipped without reducing the
remainder; moreover every emitted allocation is at least 3 points and the
allocations never exceed the distribution pool. -/
theorem work_distribution_spec :
    (∀ (oa : List OverloadAnalysis) (tasks : List TaskInput)
       (risks : List TaskRiskAnalysis) (tc : List (String × ℚ)),
      generate_work_distribution_recommendations oa tasks risks tc =
        generate_as_amended oa tasks risks tc) ∧
    (∀ (hs : List Helper) (r : ℤ) (p : String × ℤ),
      p ∈ distribute_to_helpers hs r → 3 ≤ p.2) ∧
    (∀ (hs : List Helper) (r : ℤ),
      ((distribute_to_helpers hs r).map Prod.snd).sum ≤ max r 0) := by
  refine ⟨?_, ?_, ?_⟩
  · intro oa tasks risks tc
    simp only [generate_work_distribution_recommendations, generate_as_amended,
      process_eq]
  · intro hs r p hp
    rw [distribute_eq] at hp
    exact amended_min3 hs r p hp
  · intro hs r
    rw [distribute_eq]
    exact amended_sum_le hs r

/-- C5, witness for `work_distribution_spec`: in the one-helper run with 7
points to distribute, bob is allocated at least 3 points. -/
theorem work_distribution_spec_w :
    (3 : ℤ) ≤ (("bob", (3 : ℤ)) : String × ℤ).2 := by
  have hA2v : pyInt ((7 : ℚ) / 2) = 3 := by
    simp only [pyInt, if_pos (by norm_num : (0:ℚ) ≤ (7 : ℚ) / 2)]
    exact Int.floor_eq_iff.mpr (by norm_num)
  have hA4 : pyInt ((3 : ℚ)) = 3 := by
    simp only [pyInt, if_pos (by norm_num : (0:ℚ) ≤ (3 : ℚ))]
    exact Int.floor_eq_iff.mpr (by norm_num)
  have hmem : ("bob", (3 : ℤ)) ∈
      distribute_to_helpers [⟨"bob", 40, 0, 1, 40, 40, 0⟩] 7 := by
    simp [distribute_to_helpers]
    norm_num [hA2v, hA4]
  exact work_distribution_spec.2.1 [⟨"bob", 40, 0, 1, 40, 40, 0⟩] 7 ("bob", 3) hmem

end Claims
